import Mathlib

/-!
Verification development for the collaborative canvas planner.

This file shallowly embeds the algorithmic core of the client-side
optimistic-sync engine (`src/components/Canvas.tsx`) and the store-side
cursor/edge modules (`convex/cursors.ts`, the edges module) in Lean:

* connector add/remove with redistribution,
* the critical-path / time-until-ready calculator (with its cycle guard;
  `console.warn` logging is modelled as a returned list of warning strings),
* conflict detection against pending operations and the snapshot sync step,
* the two-phase node-creation finalization (connector count and placement
  clamping; the Euclidean drag distance is taken as a parameter),
* cursor staleness filtering and cleanup,
* edge deletion with de-duplication and benign-race handling.

JavaScript numbers are modelled as rationals (ℚ); `Math.round` is modelled
as floor of x + 1/2 (JS rounds half toward +∞); `Math.floor` as `Int.floor`.
Maps and Sets are modelled as association lists / lists of keys.
-/

namespace CanvasPlanner

/-- A connector (handle) on one side of a node.  `type` is optional in the
store schema, hence `Option String`. -/
structure Connector where
  id : String
  type : Option String
  side : String
  position : ℚ
deriving Repr, DecidableEq

/-- A node row as delivered by the authoritative store
(`nodes` table in `convex/schema.ts`). -/
structure CNode where
  id : String
  x : ℚ := 0
  y : ℚ := 0
  width : ℚ := 0
  height : ℚ := 0
  text : String := ""
  description : Option String := none
  status : Option String := none
  timeEstimate : Option ℚ := none
  timeUnit : Option String := none
  connectors : Option (List Connector) := none
deriving Repr, DecidableEq

/-- An edge row as delivered by the authoritative store. -/
structure CEdge where
  id : String
  source : String
  target : String
  sourceHandle : Option String := none
  targetHandle : Option String := none
deriving Repr, DecidableEq

/-! ## Canvas constants (`Canvas.tsx` lines 36-45) -/

def MIN_NODE_SIZE : ℚ := 50

def MIN_CONNECTORS : ℤ := 1

def MAX_CONNECTORS : ℤ := 8

def CONNECTOR_DISTANCE_FACTOR : ℚ := 20

def CANVAS_MIN_X : ℚ := -5000

def CANVAS_MAX_X : ℚ := 5000

def CANVAS_MIN_Y : ℚ := -5000

def CANVAS_MAX_Y : ℚ := 5000

/-! ## Connector redistribution (`Canvas.tsx`:
`removeConnectorAndRedistribute` lines 280-310,
`addConnectorAndRedistribute` lines 1046-1066) -/

/-- The grouping predicate used by both mutations:
`c.type === t && c.side === s`. -/
def sameTypeAndSide (t : Option String) (s : String) (c : Connector) : Bool :=
  c.type == t && c.side == s

/-- `sameGroup.map((c, index) => ({...c, position: ((index+1)/(len+1))*100}))`,
written with an explicit running index. -/
def redistributeFrom (n : ℕ) (i : ℕ) : List Connector → List Connector
  | [] => []
  | c :: cs =>
    { c with position := (((i : ℚ) + 1) / ((n : ℚ) + 1)) * 100 } :: redistributeFrom n (i + 1) cs

/-- Redistribute a (type, side) group to even positions. -/
def redistribute (g : List Connector) : List Connector :=
  redistributeFrom g.length 0 g

/-- `allConnectors.map(c => redistributed.find(r => r.id === c.id) || c)`. -/
def applyRedistributed (red : List Connector) (l : List Connector) : List Connector :=
  l.map (fun c => (red.find? (fun r => r.id == c.id)).getD c)

/-- The connector-array part of `removeConnectorAndRedistribute`
(`Canvas.tsx` lines 266-295): remove by id, then redistribute the
removed connector's (type, side) group. Unchanged when the connector
is not found. -/
def removeConnectorAndRedistribute (connectors : List Connector) (connectorId : String) :
    List Connector :=
  match connectors.find? (fun c => c.id == connectorId) with
  | none => connectors
  | some connectorToRemove =>
    let remainingConnectors := connectors.filter (fun c => c.id != connectorId)
    let sameGroup :=
      remainingConnectors.filter (sameTypeAndSide connectorToRemove.type connectorToRemove.side)
    applyRedistributed (redistribute sameGroup) remainingConnectors

/-- The connector-array part of `addConnectorAndRedistribute`
(`Canvas.tsx` lines 1046-1066): append the new connector, then
redistribute its (type, side) group. -/
def addConnectorAndRedistribute (connectors : List Connector) (newConnector : Connector) :
    List Connector :=
  let allConnectors := connectors ++ [newConnector]
  let sameGroup := allConnectors.filter (sameTypeAndSide newConnector.type newConnector.side)
  applyRedistributed (redistribute sameGroup) allConnectors

/-! ## Two-phase creation finalization (`Canvas.tsx` lines 1688-1734) -/

/-- `Math.max(MIN_CONNECTORS, Math.min(MAX_CONNECTORS, Math.floor(distance / CONNECTOR_DISTANCE_FACTOR)))`.
The Euclidean distance between release point and current point is the argument. -/
def connectorCount (distance : ℚ) : ℤ :=
  max MIN_CONNECTORS (min MAX_CONNECTORS ⌊distance / CONNECTOR_DISTANCE_FACTOR⌋)

/-- `Array.from({length: connectorCount}, (_, index) => ({id: input-index,
type: "input", side: "left", position: ((index+1)/(connectorCount+1))*100}))`. -/
def newNodeInputConnectors (count : ℕ) : List Connector :=
  (List.range count).map (fun (index : ℕ) =>
    { id := "input-" ++ toString index
      type := some "input"
      side := "left"
      position := (((index : ℚ) + 1) / ((count : ℚ) + 1)) * 100 })

/-- The single centered output connector created on finalize. -/
def newNodeOutputConnector : Connector :=
  { id := "output-0", type := some "output", side := "right", position := 50 }

/-- The connector array attached to a freshly created node, as a function of
the drag distance of the connector-placement phase. -/
def finalizeConnectors (distance : ℚ) : List Connector :=
  newNodeInputConnectors (connectorCount distance).toNat ++ [newNodeOutputConnector]

/-- Creation-time clamping of the node's x position
(`Canvas.tsx` line 1715). -/
def clampCreationX (flowX nodeWidth : ℚ) : ℚ :=
  max CANVAS_MIN_X (min (CANVAS_MAX_X - nodeWidth) (flowX + nodeWidth / 2))

/-- Creation-time clamping of the node's y position
(`Canvas.tsx` line 1716). -/
def clampCreationY (flowY nodeHeight : ℚ) : ℚ :=
  max CANVAS_MIN_Y (min (CANVAS_MAX_Y - nodeHeight) (flowY + nodeHeight / 2))

/-- `onNodeDragStop` (`Canvas.tsx` lines 1468-1503) persists the dragged
position exactly as delivered by the drag event: the pending operation and
the `updatePosition` call both carry `node.position` with no clamping. -/
def onNodeDragStopPersist (x y : ℚ) : ℚ × ℚ :=
  (x, y)

/-! ## Critical-path calculator (`Canvas.tsx` lines 664-775) -/

/-- `toHours` (`Canvas.tsx` lines 675-683): convert an estimate to hours. -/
def toHours (time : ℚ) (unit : String) : ℚ :=
  if unit = "minutes" then time / 60
  else if unit = "hours" then time
  else if unit = "days" then time * 24
  else if unit = "weeks" then time * 24 * 7
  else time

/-- `fromHours` (`Canvas.tsx` lines 686-694): convert hours to a target unit. -/
def fromHours (hours : ℚ) (unit : String) : ℚ :=
  if unit = "minutes" then hours * 60
  else if unit = "hours" then hours
  else if unit = "days" then hours / 24
  else if unit = "weeks" then hours / (24 * 7)
  else hours

/-- `Math.max(...xs)` over a nonempty argument list (the code guards the
empty case separately). -/
def listMax : List ℚ → ℚ
  | [] => 0
  | x :: xs => xs.foldl max x

/-- `Math.round(q * 10) / 10` — JS `Math.round` rounds half toward +∞. -/
def roundToOneDecimal (q : ℚ) : ℚ :=
  ((⌊q * 10 + 1 / 2⌋ : ℤ) : ℚ) / 10

/-- The incoming-edge / incomplete-dependency pipeline shared by
`calculateTimeToComplete` and the top level of `calculateTimeUntilReady`:
edges targeting the node, mapped to their source nodes, keeping those whose
status is not "complete". -/
def incompleteDeps (nodes : List CNode) (edges : List CEdge) (nodeId : String) : List CNode :=
  ((edges.filter (fun e => e.target == nodeId)).filterMap
      (fun e => nodes.find? (fun n => n.id == e.source))).filter
    (fun n => n.status != some "complete")

/-- The cycle warning text logged by the calculator. -/
def cycleWarning (nodeId : String) : String :=
  "Cycle detected in dependency graph at node " ++ nodeId

/-- `calculateTimeToComplete` (`Canvas.tsx` lines 699-741).  Returns the
time in hours together with the list of cycle warnings the run logs via
`console.warn`.  The per-recursion-path visited set is the `path` list;
termination is by the number of node ids not yet on the path. -/
def calculateTimeToComplete (nodes : List CNode) (edges : List CEdge)
    (currentNodeId : String) (path : List String) : ℚ × List String :=
  if hpath : currentNodeId ∈ path then
    (0, [cycleWarning currentNodeId])
  else
    match hfind : nodes.find? (fun n => n.id == currentNodeId) with
    | none => (0, [])
    | some currentNode =>
      if currentNode.status = some "complete" then (0, [])
      else
        let incompleteDependencies := incompleteDeps nodes edges currentNodeId
        let results := incompleteDependencies.attach.map
          (fun d => calculateTimeToComplete nodes edges d.val.id (currentNodeId :: path))
        let maxDependencyTime :=
          if incompleteDependencies.isEmpty then 0 else listMax (results.map Prod.fst)
        let ownTimeInHours :=
          toHours (currentNode.timeEstimate.getD 0) (currentNode.timeUnit.getD "hours")
        (maxDependencyTime + ownTimeInHours, (results.map Prod.snd).flatten)
termination_by (((nodes.map (fun n => n.id)).toFinset) \ path.toFinset).card
decreasing_by
  have hmem : currentNode ∈ nodes := List.mem_of_find?_eq_some hfind
  have hid : currentNode.id = currentNodeId := by
    have h := List.find?_some hfind
    exact eq_of_beq h
  have hin : currentNodeId ∈ (nodes.map (fun n => n.id)).toFinset := by
    rw [List.mem_toFinset, List.mem_map]
    exact ⟨currentNode, hmem, hid⟩
  apply Finset.card_lt_card
  rw [List.toFinset_cons, Finset.ssubset_iff_subset_ne]
  constructor
  · exact Finset.sdiff_subset_sdiff (Finset.Subset.refl _) (Finset.subset_insert _ _)
  · intro hcontra
    have h1 : currentNodeId ∈ (nodes.map (fun n => n.id)).toFinset \ path.toFinset := by
      rw [Finset.mem_sdiff, List.mem_toFinset]
      exact ⟨by rw [List.mem_toFinset] at hin; exact hin, by
        rw [List.mem_toFinset]; exact hpath⟩
    rw [← hcontra] at h1
    rw [Finset.mem_sdiff, Finset.mem_insert] at h1
    exact h1.2 (Or.inl rfl)

/-- `calculateTimeUntilReady` (`Canvas.tsx` lines 664-775), returning the
rounded value in the target node's unit together with all logged cycle
warnings. -/
def calculateTimeUntilReadyLog (nodes : List CNode) (edges : List CEdge)
    (nodeId : String) : ℚ × List String :=
  match nodes.find? (fun n => n.id == nodeId) with
  | none => (0, [])
  | some targetNode =>
    if targetNode.status = some "complete" then (0, [])
    else
      let incompleteDependencies := incompleteDeps nodes edges nodeId
      if incompleteDependencies.isEmpty then (0, [])
      else
        let results :=
          incompleteDependencies.map (fun dep => calculateTimeToComplete nodes edges dep.id [])
        let timeInHours := listMax (results.map Prod.fst)
        let timeInTargetUnit := fromHours timeInHours (targetNode.timeUnit.getD "hours")
        (roundToOneDecimal timeInTargetUnit, (results.map Prod.snd).flatten)

/-- The numeric result of `calculateTimeUntilReady`. -/
def calculateTimeUntilReady (nodes : List CNode) (edges : List CEdge) (nodeId : String) : ℚ :=
  (calculateTimeUntilReadyLog nodes edges nodeId).1

/-! ## Optimistic mutation tracking and conflict detection
(`Canvas.tsx` lines 118, 785-846) -/

/-- The `data` payload of a pending operation record. -/
structure PendingData where
  x : Option ℚ := none
  y : Option ℚ := none
  text : Option String := none
  description : Option String := none
  status : Option String := none
  timeEstimate : Option ℚ := none
  timeUnit : Option String := none
deriving Repr, DecidableEq

/-- A pending operation record (`pendingOperationsRef` entry). -/
structure PendingOp where
  type : String
  data : PendingData
  timestamp : ℤ := 0
deriving Repr, DecidableEq

/-- The `isConflict` expression of the nodes sync effect
(`Canvas.tsx` lines 816-826).  JS compares `convexNode.text` (a string)
against `pendingOp.data.text` (possibly `undefined`) with `!==`, which the
`Option` comparisons mirror. -/
def isConflict (convexNode : CNode) (pendingOp : PendingOp) : Bool :=
  (pendingOp.type == "position" &&
    match pendingOp.data.x, pendingOp.data.y with
    | some ex, some ey =>
      decide (1 < |convexNode.x - ex|) || decide (1 < |convexNode.y - ey|)
    | _, _ => false)
  || (pendingOp.type == "text" && some convexNode.text != pendingOp.data.text)
  || (pendingOp.type == "description" && convexNode.description != pendingOp.data.description)
  || (pendingOp.type == "status" && convexNode.status != pendingOp.data.status)
  || (pendingOp.type == "timeEstimate" && convexNode.timeEstimate != pendingOp.data.timeEstimate)
  || (pendingOp.type == "timeUnit" && convexNode.timeUnit != pendingOp.data.timeUnit)

/-- One record of the serialized snapshot hash
(`Canvas.tsx` lines 789-799). -/
structure SnapshotHashEntry where
  id : String
  x : ℚ
  y : ℚ
  text : String
  description : Option String
  status : Option String
  timeEstimate : Option ℚ
  timeUnit : Option String
  connectors : Option (List Connector)
deriving Repr, DecidableEq

/-- The fields serialized into `convexDataHash`
(`Canvas.tsx` lines 789-799); `JSON.stringify` of these records is injective
on them, so the hash is modelled as the projected record list itself. -/
def snapshotFields (n : CNode) : SnapshotHashEntry :=
  { id := n.id, x := n.x, y := n.y, text := n.text, description := n.description
    status := n.status, timeEstimate := n.timeEstimate, timeUnit := n.timeUnit
    connectors := n.connectors }

/-- Client sync state: the pending-operations map (association list keyed by
node id), the last synced snapshot hash, and the conflict banner flag. -/
structure SyncState where
  pending : List (String × PendingOp)
  lastSynced : Option (List SnapshotHashEntry) := none
  conflictDetected : Bool := false

/-- `pendingOperationsRef.current.get(nodeId)`. -/
def lookupPending (pending : List (String × PendingOp)) (nodeId : String) : Option PendingOp :=
  (pending.find? (fun kv => kv.1 == nodeId)).map Prod.snd

/-- The pending-operation part of the nodes sync effect
(`Canvas.tsx` lines 785-846): skip everything when the snapshot hash equals
the last processed one; otherwise flag conflicts against pending records and
delete the pending record of every node contained in the snapshot. -/
def processNodesSnapshot (st : SyncState) (convexNodes : List CNode) : SyncState :=
  let convexDataHash := convexNodes.map snapshotFields
  if st.lastSynced = some convexDataHash then st
  else
    let hasConflict := convexNodes.any (fun n =>
      match lookupPending st.pending n.id with
      | some p => isConflict n p
      | none => false)
    { pending := st.pending.filter (fun kv => !(convexNodes.any (fun n => n.id == kv.1)))
      lastSynced := some convexDataHash
      conflictDetected := st.conflictDetected || hasConflict }

/-! ## Store-side cursors (`convex/cursors.ts`) -/

/-- `CURSOR_TIMEOUT_MS` (`convex/cursors.ts` line 4) — 5000 ms. -/
def CURSOR_TIMEOUT_MS : ℤ := 5000

/-- A row of the `cursors` table. -/
structure Cursor where
  sessionId : String
  x : ℚ := 0
  y : ℚ := 0
  userName : String := ""
  color : String := ""
  lastUpdated : ℤ
deriving Repr, DecidableEq

/-- `cursors.getAll` (`convex/cursors.ts` lines 7-17): keep cursors with
`now - lastUpdated < CURSOR_TIMEOUT_MS`. -/
def cursorsGetAll (now : ℤ) (allCursors : List Cursor) : List Cursor :=
  allCursors.filter (fun cursor => decide (now - cursor.lastUpdated < CURSOR_TIMEOUT_MS))

/-- The cursors remaining after `cursors.cleanup`
(`convex/cursors.ts` lines 84-95): rows with
`now - lastUpdated > CURSOR_TIMEOUT_MS` are deleted. -/
def cursorsCleanup (now : ℤ) (allCursors : List Cursor) : List Cursor :=
  allCursors.filter (fun cursor => !(decide (now - cursor.lastUpdated > CURSOR_TIMEOUT_MS)))

/-! ## Edge deletion (`Canvas.tsx` lines 1424-1465, `edges.remove`) -/

/-- A ReactFlow edge as held in local state. -/
structure FlowEdge where
  id : String
  source : String := ""
  target : String := ""
  sourceHandle : Option String := none
  targetHandle : Option String := none
deriving Repr, DecidableEq

/-- `pat` is a prefix of `l` (on character lists). -/
def listHasPrefix : List Char → List Char → Bool
  | _, [] => true
  | [], _ :: _ => false
  | c :: cs, p :: ps => c == p && listHasPrefix cs ps

/-- `pat` occurs somewhere in `l` (on character lists). -/
def listHasInfix (pat : List Char) : List Char → Bool
  | [] => listHasPrefix [] pat
  | c :: rest => listHasPrefix (c :: rest) pat || listHasInfix pat rest

/-- The "not found"-style error text test (`Canvas.tsx` lines 1447-1449);
JS `String.includes` is modelled as substring occurrence over the
character lists. -/
def isNotFoundErrorMessage (errorMessage : String) : Bool :=
  listHasInfix "not found".data errorMessage.data
  || listHasInfix "does not exist".data errorMessage.data
  || listHasInfix "Could not find".data errorMessage.data

/-! ### Edge-deletion helper lemmas -/

/-- First-occurrence key order of a JS `Map` built from a keyed list. -/
def dedupKeys : List String → List String
  | [] => []
  | i :: rest => i :: (dedupKeys rest).filter (fun j => j != i)

/-- `Array.from(new Map(deleted.map(edge => [edge.id, edge])).values())`
(`Canvas.tsx` lines 1427-1429): for each id in order of first occurrence,
the last edge carrying it. -/
def uniqueEdgesById (deleted : List FlowEdge) : List FlowEdge :=
  (dedupKeys (deleted.map (fun e => e.id))).filterMap
    (fun i => deleted.reverse.find? (fun e => e.id == i))

/-- The toast shown when an edge deletion fails for a real reason. -/
def deleteEdgeErrorToast : String := "Failed to delete connection. Please try again."

/-- One iteration of the `onEdgesDelete` loop over `(local edges, surfaced
errors, attempted removeEdge calls)`.  `outcome id = none` means the
`removeEdge` mutation resolved; `some msg` means it rejected with `msg`. -/
def onEdgesDeleteStep (outcome : String → Option String) (deletingEdges : List String)
    (st : List FlowEdge × List String × List String) (edge : FlowEdge) :
    List FlowEdge × List String × List String :=
  if deletingEdges.contains edge.id then st
  else
    match outcome edge.id with
    | none => (st.1, st.2.1, st.2.2 ++ [edge.id])
    | some errorMessage =>
      if isNotFoundErrorMessage errorMessage then (st.1, st.2.1, st.2.2 ++ [edge.id])
      else (st.1 ++ [edge], st.2.1 ++ [deleteEdgeErrorToast], st.2.2 ++ [edge.id])

/-- `onEdgesDelete` (`Canvas.tsx` lines 1424-1465): de-duplicate, skip ids
whose deletion is already in flight, and handle each outcome.  Returns the
final local edge list, the surfaced error toasts, and the edge ids for which
`removeEdge` was called. -/
def onEdgesDelete (outcome : String → Option String) (deletingEdges : List String)
    (edges : List FlowEdge) (deleted : List FlowEdge) :
    List FlowEdge × List String × List String :=
  (uniqueEdgesById deleted).foldl (onEdgesDeleteStep outcome deletingEdges) (edges, [], [])

/-- Whether the deletion of `edgeId` makes `onEdgesDelete` roll back and
surface an error: it failed with a message that is not "not found"-style. -/
def rollbackNeeded (outcome : String → Option String) (edgeId : String) : Bool :=
  match outcome edgeId with
  | none => false
  | some errorMessage => !(isNotFoundErrorMessage errorMessage)

/-- `edges.remove` (the edges store module, `remove` mutation): delete the
edge if it still exists, otherwise do nothing. -/
def edgesRemove (db : List FlowEdge) (edgeId : String) : List FlowEdge :=
  match db.find? (fun e => e.id == edgeId) with
  | none => db
  | some _ => db.filter (fun e => e.id != edgeId)

/-- Even spacing of the (type, side) group of a connector list, in group
order: position i of n is 100*(i+1)/(n+1). -/
def groupEvenlySpaced (l : List Connector) (t : Option String) (s : String) : Prop :=
  (l.filter (sameTypeAndSide t s)).map (fun c => c.position) =
    (List.range (l.filter (sameTypeAndSide t s)).length).map
      (fun (i : ℕ) => 100 * ((i : ℚ) + 1) / (((l.filter (sameTypeAndSide t s)).length : ℚ) + 1))

/-- A demo connector set: three left inputs and one right output. -/
def demoConnectors : List Connector :=
  [{ id := "input-0", type := some "input", side := "left", position := 25 },
   { id := "input-1", type := some "input", side := "left", position := 50 },
   { id := "input-2", type := some "input", side := "left", position := 75 },
   { id := "output-0", type := some "output", side := "right", position := 50 }]

/-- The demo connector removed in the C2 witness. -/
def demoRemoved : Connector :=
  { id := "input-1", type := some "input", side := "left", position := 50 }

/-! ### Critical-path example graphs -/

/-- Fan-in example: D depends on A (1 h) and B (3 h), all incomplete. -/
def fanInNodes : List CNode :=
  [{ id := "A", timeEstimate := some 1, timeUnit := some "hours" },
   { id := "B", timeEstimate := some 3, timeUnit := some "hours" },
   { id := "D" }]

/-- Edges A→D and B→D. -/
def fanInEdges : List CEdge :=
  [{ id := "eAD", source := "A", target := "D" },
   { id := "eBD", source := "B", target := "D" }]

/-! ### Cycle example A→B→A -/

/-- Cycle example nodes: A (1 h) and B, both incomplete. -/
def cycleNodes : List CNode :=
  [{ id := "A", timeEstimate := some 1, timeUnit := some "hours" },
   { id := "B" }]

/-- Cycle edges A→B and B→A. -/
def cycleEdges : List CEdge :=
  [{ id := "eAB", source := "A", target := "B" },
   { id := "eBA", source := "B", target := "A" }]

/-! ### Unfolding lemmas for `calculateTimeToComplete` -/

theorem calculateTimeToComplete_cycle (nodes : List CNode) (edges : List CEdge)
    (currentNodeId : String) (path : List String) (h : currentNodeId ∈ path) :
    calculateTimeToComplete nodes edges currentNodeId path = (0, [cycleWarning currentNodeId]) := by
  rw [calculateTimeToComplete, dif_pos h]

theorem calculateTimeToComplete_find_none (nodes : List CNode) (edges : List CEdge)
    (currentNodeId : String) (path : List String) (h1 : currentNodeId ∉ path)
    (h2 : nodes.find? (fun n => n.id == currentNodeId) = none) :
    calculateTimeToComplete nodes edges currentNodeId path = (0, []) := by
  rw [calculateTimeToComplete, dif_neg h1]
  split
  · rfl
  · rename_i n heq
    exact Option.noConfusion (h2.symm.trans heq)

theorem calculateTimeToComplete_complete (nodes : List CNode) (edges : List CEdge)
    (currentNodeId : String) (path : List String) (currentNode : CNode)
    (h1 : currentNodeId ∉ path)
    (h2 : nodes.find? (fun n => n.id == currentNodeId) = some currentNode)
    (h3 : currentNode.status = some "complete") :
    calculateTimeToComplete nodes edges currentNodeId path = (0, []) := by
  rw [calculateTimeToComplete, dif_neg h1]
  split
  · rename_i heq
    exact Option.noConfusion (h2.symm.trans heq)
  · rename_i n heq
    rw [h2] at heq
    injection heq with heq
    subst heq
    exact if_pos h3

theorem calculateTimeToComplete_step (nodes : List CNode) (edges : List CEdge)
    (currentNodeId : String) (path : List String) (currentNode : CNode)
    (h1 : currentNodeId ∉ path)
    (h2 : nodes.find? (fun n => n.id == currentNodeId) = some currentNode)
    (h3 : ¬ currentNode.status = some "complete") :
    calculateTimeToComplete nodes edges currentNodeId path =
      ((if (incompleteDeps nodes edges currentNodeId).isEmpty then 0
        else listMax ((incompleteDeps nodes edges currentNodeId).map
          (fun d => (calculateTimeToComplete nodes edges d.id (currentNodeId :: path)).1)))
        + toHours (currentNode.timeEstimate.getD 0) (currentNode.timeUnit.getD "hours"),
       ((incompleteDeps nodes edges currentNodeId).map
          (fun d => (calculateTimeToComplete nodes edges d.id (currentNodeId :: path)).2)).flatten) := by
  rw [calculateTimeToComplete, dif_neg h1]
  split
  · rename_i heq
    exact Option.noConfusion (h2.symm.trans heq)
  · rename_i n heq
    rw [h2] at heq
    injection heq with heq
    subst heq
    rw [if_neg h3]
    have h4 : ∀ {γ : Type} (g : ℚ × List String → γ),
        ((incompleteDeps nodes edges currentNodeId).attach.map
          (fun d => calculateTimeToComplete nodes edges d.val.id (currentNodeId :: path))).map g =
        (incompleteDeps nodes edges currentNodeId).map
          (fun (d : CNode) => g (calculateTimeToComplete nodes edges d.id (currentNodeId :: path))) := by
      intro γ g
      rw [List.map_map]
      exact List.attach_map_val _
        (fun (d : CNode) => g (calculateTimeToComplete nodes edges d.id (currentNodeId :: path)))
    simp only [h4]

theorem mem_dedupKeys (a : String) : ∀ (l : List String), a ∈ dedupKeys l ↔ a ∈ l := by
  intro l
  induction l with
  | nil => simp [dedupKeys]
  | cons i rest ih =>
    rw [dedupKeys]
    constructor
    · intro h
      rcases List.mem_cons.mp h with h | h
      · exact h ▸ List.mem_cons_self i rest
      · exact List.mem_cons_of_mem i (ih.mp (List.mem_of_mem_filter h))
    · intro h
      rcases List.mem_cons.mp h with h | h
      · exact h ▸ List.mem_cons_self i _
      · by_cases hai : a = i
        · exact hai ▸ List.mem_cons_self i _
        · apply List.mem_cons_of_mem
          apply List.mem_filter.mpr
          exact ⟨ih.mpr h, by simp [hai]⟩

theorem nodup_dedupKeys : ∀ (l : List String), (dedupKeys l).Nodup := by
  intro l
  induction l with
  | nil => exact List.nodup_nil
  | cons i rest ih =>
    rw [dedupKeys, List.nodup_cons]
    constructor
    · intro hmem
      have h := List.mem_filter.mp hmem
      simp at h
    · exact List.Nodup.filter _ ih

/-! ### Redistribution helper lemmas -/

theorem redistributeFrom_map_id (n : ℕ) (l : List Connector) : ∀ (i : ℕ),
    (redistributeFrom n i l).map (fun c => c.id) = l.map (fun c => c.id) := by
  induction l with
  | nil => intro i; rfl
  | cons c cs ih => intro i; simp [redistributeFrom, ih (i + 1)]

theorem redistributeFrom_group (t : Option String) (s : String) (n : ℕ) (l : List Connector)
    (h : ∀ c ∈ l, sameTypeAndSide t s c = true) :
    ∀ (i : ℕ), ∀ c ∈ redistributeFrom n i l, sameTypeAndSide t s c = true := by
  induction l with
  | nil => intro i c hc; cases hc
  | cons a cs ih =>
    intro i c hc
    rw [redistributeFrom] at hc
    rcases List.mem_cons.mp hc with hc | hc
    · subst hc
      have := h a (List.mem_cons_self a cs)
      simpa [sameTypeAndSide] using this
    · exact ih (fun c' hc' => h c' (List.mem_cons_of_mem a hc')) (i + 1) c hc

theorem redistributeFrom_map_position (n : ℕ) (l : List Connector) : ∀ (i : ℕ),
    (redistributeFrom n i l).map (fun c => c.position) =
      (List.range l.length).map
        (fun (j : ℕ) => (((i : ℚ) + (j : ℚ)) + 1) / ((n : ℚ) + 1) * 100) := by
  induction l with
  | nil => intro i; rfl
  | cons c cs ih =>
    intro i
    rw [redistributeFrom, List.map_cons, List.length_cons, List.range_succ_eq_map,
      List.map_cons, List.map_map, ih (i + 1)]
    congr 1
    · norm_num
    · apply List.map_congr_left
      intro j hj
      simp only [Function.comp_def, Nat.succ_eq_add_one]
      push_cast
      ring

theorem applyRedistributed_spec (p : Connector → Bool) :
    ∀ (l red : List Connector),
      (∀ r ∈ red, p r = true) →
      red.map (fun c => c.id) = (l.filter p).map (fun c => c.id) →
      (l.map (fun c => c.id)).Nodup →
      (applyRedistributed red l).filter p = red ∧
      (applyRedistributed red l).filter (fun c => !(p c)) = l.filter (fun c => !(p c)) ∧
      (applyRedistributed red l).map (fun c => c.id) = l.map (fun c => c.id) := by
  intro l
  induction l with
  | nil =>
    intro red hred hids hnd
    have hrednil : red = [] := by
      simp only [List.filter_nil, List.map_nil, List.map_eq_nil_iff] at hids
      exact hids
    subst hrednil
    simp [applyRedistributed]
  | cons c l ih =>
    intro red hred hids hnd
    rw [List.map_cons, List.nodup_cons] at hnd
    obtain ⟨hcid, hnd2⟩ := hnd
    by_cases hc : p c = true
    · rw [List.filter_cons_of_pos hc, List.map_cons] at hids
      cases red with
      | nil => cases hids
      | cons r red2 =>
        rw [List.map_cons, List.cons.injEq] at hids
        obtain ⟨hrid, hids2⟩ := hids
        have hfind : (r :: red2).find? (fun x => x.id == c.id) = some r := by
          apply List.find?_cons_of_pos
          exact beq_iff_eq.mpr hrid
        have htail : applyRedistributed (r :: red2) l = applyRedistributed red2 l := by
          unfold applyRedistributed
          apply List.map_congr_left
          intro a ha
          have haid : (r.id == a.id) = false := by
            apply beq_eq_false_iff_ne.mpr
            intro hcontra
            apply hcid
            rw [← hrid, hcontra]
            exact List.mem_map_of_mem (fun c => c.id) ha
          simp [haid]
        have hhead : applyRedistributed (r :: red2) (c :: l) =
            r :: applyRedistributed (r :: red2) l := by
          unfold applyRedistributed
          rw [List.map_cons, hfind]
          rfl
        obtain ⟨ih1, ih2, ih3⟩ :=
          ih red2 (fun r2 hr2 => hred r2 (List.mem_cons_of_mem r hr2)) hids2 hnd2
        refine ⟨?_, ?_, ?_⟩
        · rw [hhead, htail, List.filter_cons_of_pos (hred r (List.mem_cons_self r red2)), ih1]
        · rw [hhead, htail,
            List.filter_cons_of_neg (by simp [hred r (List.mem_cons_self r red2)]),
            List.filter_cons_of_neg (by simp [hc]), ih2]
        · rw [hhead, htail, List.map_cons, ih3, hrid, List.map_cons]
    · have hcf : p c = false := Bool.not_eq_true _ |>.mp hc
      rw [List.filter_cons_of_neg (by simp [hcf])] at hids
      have hfind : red.find? (fun x => x.id == c.id) = none := by
        apply List.find?_eq_none.mpr
        intro r hr
        have hrin : r.id ∈ (l.filter p).map (fun c => c.id) := by
          rw [← hids]
          exact List.mem_map_of_mem (fun c => c.id) hr
        have hrin2 : r.id ∈ l.map (fun c => c.id) := by
          rcases List.mem_map.mp hrin with ⟨a, ha, haid⟩
          exact haid ▸ List.mem_map_of_mem (fun c => c.id) (List.mem_of_mem_filter ha)
        simp only [beq_iff_eq]
        intro hcontra
        rw [hcontra] at hrin2
        exact hcid hrin2
      have hhead : applyRedistributed red (c :: l) = c :: applyRedistributed red l := by
        unfold applyRedistributed
        rw [List.map_cons, hfind]
        rfl
      obtain ⟨ih1, ih2, ih3⟩ := ih red hred hids hnd2
      refine ⟨?_, ?_, ?_⟩
      · rw [hhead, List.filter_cons_of_neg (by simp [hcf]), ih1]
      · rw [hhead, List.filter_cons_of_pos (by simp [hcf]), List.filter_cons_of_pos (by simp [hcf]), ih2]
      · rw [hhead, List.map_cons, ih3, List.map_cons]

theorem length_redistribute (g : List Connector) : (redistribute g).length = g.length := by
  have h := redistributeFrom_map_id g.length g 0
  have h1 := congrArg List.length h
  simpa [redistribute] using h1

theorem redistribute_positions (g : List Connector) :
    (redistribute g).map (fun c => c.position) =
      (List.range g.length).map
        (fun (j : ℕ) => 100 * ((j : ℚ) + 1) / ((g.length : ℚ) + 1)) := by
  rw [redistribute, redistributeFrom_map_position g.length g 0]
  apply List.map_congr_left
  intro j hj
  push_cast
  ring

theorem removeConnectorAndRedistribute_spec (connectors : List Connector) (connectorId : String)
    (rem : Connector)
    (hnd : (connectors.map (fun c => c.id)).Nodup)
    (hfind : connectors.find? (fun c => c.id == connectorId) = some rem) :
    (removeConnectorAndRedistribute connectors connectorId).filter
        (sameTypeAndSide rem.type rem.side) =
      redistribute ((connectors.filter (fun c => c.id != connectorId)).filter
        (sameTypeAndSide rem.type rem.side)) ∧
    (removeConnectorAndRedistribute connectors connectorId).filter
        (fun c => !(sameTypeAndSide rem.type rem.side c)) =
      (connectors.filter (fun c => c.id != connectorId)).filter
        (fun c => !(sameTypeAndSide rem.type rem.side c)) ∧
    (removeConnectorAndRedistribute connectors connectorId).map (fun c => c.id) =
      (connectors.filter (fun c => c.id != connectorId)).map (fun c => c.id) := by
  have hres : removeConnectorAndRedistribute connectors connectorId =
      applyRedistributed
        (redistribute ((connectors.filter (fun c => c.id != connectorId)).filter
          (sameTypeAndSide rem.type rem.side)))
        (connectors.filter (fun c => c.id != connectorId)) := by
    unfold removeConnectorAndRedistribute
    rw [hfind]
  rw [hres]
  apply applyRedistributed_spec (sameTypeAndSide rem.type rem.side)
  · intro r hr
    apply redistributeFrom_group rem.type rem.side _ _ _ 0 r hr
    intro c hc
    exact (List.mem_filter.mp hc).2
  · exact redistributeFrom_map_id _ _ 0
  · exact List.Nodup.sublist (List.Sublist.map _ (List.filter_sublist _)) hnd

theorem addConnectorAndRedistribute_spec (connectors : List Connector)
    (newConnector : Connector)
    (hnd : ((connectors ++ [newConnector]).map (fun c => c.id)).Nodup) :
    (addConnectorAndRedistribute connectors newConnector).filter
        (sameTypeAndSide newConnector.type newConnector.side) =
      redistribute ((connectors ++ [newConnector]).filter
        (sameTypeAndSide newConnector.type newConnector.side)) ∧
    (addConnectorAndRedistribute connectors newConnector).filter
        (fun c => !(sameTypeAndSide newConnector.type newConnector.side c)) =
      (connectors ++ [newConnector]).filter
        (fun c => !(sameTypeAndSide newConnector.type newConnector.side c)) ∧
    (addConnectorAndRedistribute connectors newConnector).map (fun c => c.id) =
      (connectors ++ [newConnector]).map (fun c => c.id) := by
  apply applyRedistributed_spec (sameTypeAndSide newConnector.type newConnector.side)
  · intro r hr
    apply redistributeFrom_group newConnector.type newConnector.side _ _ _ 0 r hr
    intro c hc
    exact (List.mem_filter.mp hc).2
  · exact redistributeFrom_map_id _ _ 0
  · exact hnd

theorem sameTypeAndSide_self (c : Connector) : sameTypeAndSide c.type c.side c = true := by
  simp [sameTypeAndSide]

theorem filter_not_group_remove (connectors : List Connector) (connectorId : String)
    (rem : Connector)
    (hnd : (connectors.map (fun c => c.id)).Nodup)
    (hfind : connectors.find? (fun c => c.id == connectorId) = some rem) :
    (connectors.filter (fun c => c.id != connectorId)).filter
        (fun c => !(sameTypeAndSide rem.type rem.side c)) =
      connectors.filter (fun c => !(sameTypeAndSide rem.type rem.side c)) := by
  have hremmem : rem ∈ connectors := List.mem_of_find?_eq_some hfind
  have hremid : rem.id = connectorId := by
    have h := List.find?_some hfind
    exact eq_of_beq h
  rw [List.filter_filter]
  apply List.filter_congr
  intro a ha
  by_cases hpa : sameTypeAndSide rem.type rem.side a = true
  · simp [hpa]
  · have hpa2 : sameTypeAndSide rem.type rem.side a = false := by
      simpa using hpa
    have haid : a.id ≠ connectorId := by
      intro hcontra
      have hae : a = rem := by
        apply List.inj_on_of_nodup_map hnd ha hremmem
        rw [hcontra, hremid]
      rw [hae] at hpa
      exact hpa (sameTypeAndSide_self rem)
    simp [hpa2, haid]

/-- C2: after a removeConnector (of a present connector) or an addConnector,
the mutated connector's (type, side) group sits at positions 100*(i+1)/(n+1)
in group order, and connector-id uniqueness is preserved, so the invariant
holds after every operation of any add/remove sequence. -/
theorem claim_C2 :
    (∀ (connectors : List Connector) (connectorId : String) (rem : Connector),
      (connectors.map (fun c => c.id)).Nodup →
      connectors.find? (fun c => c.id == connectorId) = some rem →
      groupEvenlySpaced (removeConnectorAndRedistribute connectors connectorId)
        rem.type rem.side ∧
      ((removeConnectorAndRedistribute connectors connectorId).map (fun c => c.id)).Nodup) ∧
    (∀ (connectors : List Connector) (newConnector : Connector),
      ((connectors ++ [newConnector]).map (fun c => c.id)).Nodup →
      groupEvenlySpaced (addConnectorAndRedistribute connectors newConnector)
        newConnector.type newConnector.side ∧
      ((addConnectorAndRedistribute connectors newConnector).map (fun c => c.id)).Nodup) := by
  constructor
  · intro connectors connectorId rem hnd hfind
    obtain ⟨h1, h2, h3⟩ := removeConnectorAndRedistribute_spec connectors connectorId rem hnd hfind
    constructor
    · unfold groupEvenlySpaced
      rw [h1, redistribute_positions, length_redistribute]
    · rw [h3]
      exact List.Nodup.sublist (List.Sublist.map _ (List.filter_sublist _)) hnd
  · intro connectors newConnector hnd
    obtain ⟨h1, h2, h3⟩ := addConnectorAndRedistribute_spec connectors newConnector hnd
    constructor
    · unfold groupEvenlySpaced
      rw [h1, redistribute_positions, length_redistribute]
    · rw [h3]
      exact hnd

/-- C10: both operations leave every connector outside the mutated (type,
side) group untouched (same id, type, side, position, same relative order),
and the connector id multiset changes only by the removed/added id. -/
theorem claim_C10 :
    (∀ (connectors : List Connector) (connectorId : String) (rem : Connector),
      (connectors.map (fun c => c.id)).Nodup →
      connectors.find? (fun c => c.id == connectorId) = some rem →
      (removeConnectorAndRedistribute connectors connectorId).filter
          (fun c => !(sameTypeAndSide rem.type rem.side c)) =
        connectors.filter (fun c => !(sameTypeAndSide rem.type rem.side c)) ∧
      (removeConnectorAndRedistribute connectors connectorId).map (fun c => c.id) =
        (connectors.filter (fun c => c.id != connectorId)).map (fun c => c.id)) ∧
    (∀ (connectors : List Connector) (newConnector : Connector),
      ((connectors ++ [newConnector]).map (fun c => c.id)).Nodup →
      (addConnectorAndRedistribute connectors newConnector).filter
          (fun c => !(sameTypeAndSide newConnector.type newConnector.side c)) =
        connectors.filter
          (fun c => !(sameTypeAndSide newConnector.type newConnector.side c)) ∧
      (addConnectorAndRedistribute connectors newConnector).map (fun c => c.id) =
        connectors.map (fun c => c.id) ++ [newConnector.id]) := by
  constructor
  · intro connectors connectorId rem hnd hfind
    obtain ⟨h1, h2, h3⟩ := removeConnectorAndRedistribute_spec connectors connectorId rem hnd hfind
    refine ⟨?_, h3⟩
    rw [h2]
    exact filter_not_group_remove connectors connectorId rem hnd hfind
  · intro connectors newConnector hnd
    obtain ⟨h1, h2, h3⟩ := addConnectorAndRedistribute_spec connectors newConnector hnd
    constructor
    · rw [h2, List.filter_append]
      have hnc : (List.filter
          (fun c => !(sameTypeAndSide newConnector.type newConnector.side c))
          [newConnector]) = [] := by
        simp [sameTypeAndSide_self]
      rw [hnc, List.append_nil]
    · rw [h3, List.map_append]
      rfl

theorem claim_C2_witness :
    groupEvenlySpaced (removeConnectorAndRedistribute demoConnectors "input-1")
      (some "input") "left" ∧
    ((removeConnectorAndRedistribute demoConnectors "input-1").map (fun c => c.id)).Nodup := by
  have h := claim_C2.1 demoConnectors "input-1" demoRemoved (by decide) (by decide)
  exact h

theorem claim_C10_witness :
    (removeConnectorAndRedistribute demoConnectors "input-0").filter
        (fun c => !(sameTypeAndSide (some "input") "left" c)) =
      demoConnectors.filter (fun c => !(sameTypeAndSide (some "input") "left" c)) ∧
    (removeConnectorAndRedistribute demoConnectors "input-0").map (fun c => c.id) =
      (demoConnectors.filter (fun c => c.id != "input-0")).map (fun c => c.id) := by
  have h := claim_C10.1 demoConnectors "input-0"
    { id := "input-0", type := some "input", side := "left", position := 25 }
    (by decide) (by decide)
  exact h

theorem string_unit_ne :
    ("hours" : String) ≠ "minutes" ∧ ("hours" : String) ≠ "days" ∧
    ("hours" : String) ≠ "weeks" ∧ (none : Option String) ≠ some "complete" := by
  refine ⟨?_, ?_, ?_, ?_⟩ <;> decide

theorem fanIn_A : calculateTimeToComplete fanInNodes fanInEdges "A" [] = (1, []) := by
  rw [calculateTimeToComplete_step fanInNodes fanInEdges "A" []
    { id := "A", timeEstimate := some 1, timeUnit := some "hours" }
    (by simp) (by decide) (by decide)]
  have hdeps : incompleteDeps fanInNodes fanInEdges "A" = [] := by decide
  rw [hdeps]
  norm_num [toHours, string_unit_ne.1]

theorem fanIn_B : calculateTimeToComplete fanInNodes fanInEdges "B" [] = (3, []) := by
  rw [calculateTimeToComplete_step fanInNodes fanInEdges "B" []
    { id := "B", timeEstimate := some 3, timeUnit := some "hours" }
    (by simp) (by decide) (by decide)]
  have hdeps : incompleteDeps fanInNodes fanInEdges "B" = [] := by decide
  rw [hdeps]
  norm_num [toHours, string_unit_ne.1]

theorem fanIn_D : calculateTimeUntilReadyLog fanInNodes fanInEdges "D" = (3, []) := by
  have hfD : fanInNodes.find? (fun n => n.id == "D") = some ({ id := "D" } : CNode) := by
    decide
  have hdeps : incompleteDeps fanInNodes fanInEdges "D" =
      [{ id := "A", timeEstimate := some 1, timeUnit := some "hours" },
       { id := "B", timeEstimate := some 3, timeUnit := some "hours" }] := by
    decide
  unfold calculateTimeUntilReadyLog
  rw [hfD]
  simp only [hdeps, List.map_cons, List.map_nil]
  rw [fanIn_A, fanIn_B]
  norm_num [listMax, fromHours, roundToOneDecimal, string_unit_ne.1, string_unit_ne.2.2.2]

/-- C1: the recursive helper satisfies the reference recurrence (0 when
complete, otherwise own estimate in hours plus the maximum over incomplete
dependencies), the top level is 0 for a complete target or one without
incomplete dependencies and otherwise the unit-converted rounded maximum,
with the spec's conversion table; fan-in example included. -/
theorem claim_C1 :
    (∀ (nodes : List CNode) (edges : List CEdge) (currentNodeId : String)
        (path : List String) (currentNode : CNode),
      nodes.find? (fun n => n.id == currentNodeId) = some currentNode →
      currentNode.status = some "complete" →
      (calculateTimeToComplete nodes edges currentNodeId path).1 = 0) ∧
    (∀ (nodes : List CNode) (edges : List CEdge) (currentNodeId : String)
        (path : List String) (currentNode : CNode),
      currentNodeId ∉ path →
      nodes.find? (fun n => n.id == currentNodeId) = some currentNode →
      currentNode.status ≠ some "complete" →
      (calculateTimeToComplete nodes edges currentNodeId path).1 =
        toHours (currentNode.timeEstimate.getD 0) (currentNode.timeUnit.getD "hours")
          + (if (incompleteDeps nodes edges currentNodeId).isEmpty then 0
             else listMax ((incompleteDeps nodes edges currentNodeId).map
               (fun d => (calculateTimeToComplete nodes edges d.id (currentNodeId :: path)).1)))) ∧
    (∀ (nodes : List CNode) (edges : List CEdge) (nodeId : String) (targetNode : CNode),
      nodes.find? (fun n => n.id == nodeId) = some targetNode →
      (targetNode.status = some "complete" ∨ incompleteDeps nodes edges nodeId = []) →
      calculateTimeUntilReady nodes edges nodeId = 0) ∧
    (∀ (nodes : List CNode) (edges : List CEdge) (nodeId : String) (targetNode : CNode),
      nodes.find? (fun n => n.id == nodeId) = some targetNode →
      targetNode.status ≠ some "complete" →
      incompleteDeps nodes edges nodeId ≠ [] →
      calculateTimeUntilReady nodes edges nodeId =
        roundToOneDecimal (fromHours
          (listMax ((incompleteDeps nodes edges nodeId).map
            (fun d => (calculateTimeToComplete nodes edges d.id []).1)))
          (targetNode.timeUnit.getD "hours"))) ∧
    (∀ q : ℚ, fromHours q "minutes" = q * 60 ∧ fromHours q "hours" = q ∧
      fromHours q "days" = q / 24 ∧ fromHours q "weeks" = q / 168) ∧
    (∀ (q : ℚ) (u : String),
      u ∉ (["minutes", "hours", "days", "weeks"] : List String) → fromHours q u = q) ∧
    calculateTimeUntilReady fanInNodes fanInEdges "D" = 3 := by
  refine ⟨?_, ?_, ?_, ?_, ?_, ?_, ?_⟩
  · intro nodes edges currentNodeId path currentNode hfind hcomp
    by_cases hpath : currentNodeId ∈ path
    · rw [calculateTimeToComplete_cycle nodes edges currentNodeId path hpath]
    · rw [calculateTimeToComplete_complete nodes edges currentNodeId path currentNode
        hpath hfind hcomp]
  · intro nodes edges currentNodeId path currentNode hpath hfind hstat
    rw [calculateTimeToComplete_step nodes edges currentNodeId path currentNode
      hpath hfind hstat]
    exact add_comm _ _
  · intro nodes edges nodeId targetNode hfind hor
    rcases hor with hc | hd
    · simp only [calculateTimeUntilReady, calculateTimeUntilReadyLog, hfind, if_pos hc]
    · simp only [calculateTimeUntilReady, calculateTimeUntilReadyLog, hfind, hd]
      by_cases hc2 : targetNode.status = some "complete"
      · rw [if_pos hc2]
      · rw [if_neg hc2]
        simp
  · intro nodes edges nodeId targetNode hfind hstat hne
    have hie : ¬ ((incompleteDeps nodes edges nodeId).isEmpty = true) := by
      intro h
      exact hne (List.isEmpty_iff.mp h)
    simp only [calculateTimeUntilReady, calculateTimeUntilReadyLog, hfind, if_neg hstat,
      if_neg hie, List.map_map, Function.comp_def]
  · intro q
    refine ⟨?_, ?_, ?_, ?_⟩
    · rw [fromHours, if_pos rfl]
    · rw [fromHours, if_neg (by decide), if_pos rfl]
    · rw [fromHours, if_neg (by decide), if_neg (by decide), if_pos rfl]
    · rw [fromHours, if_neg (by decide), if_neg (by decide), if_neg (by decide), if_pos rfl]
      norm_num
  · intro q u hu
    simp only [List.mem_cons, List.mem_singleton, not_or] at hu
    obtain ⟨h1, h2, h3, h4, h5⟩ := hu
    rw [fromHours, if_neg h1, if_neg h2, if_neg h3, if_neg h4]
  · show (calculateTimeUntilReadyLog fanInNodes fanInEdges "D").1 = 3
    rw [fanIn_D]

theorem cycle_A1 : calculateTimeToComplete cycleNodes cycleEdges "A" ["B"] =
    (1, [cycleWarning "B"]) := by
  rw [calculateTimeToComplete_step cycleNodes cycleEdges "A" ["B"]
    { id := "A", timeEstimate := some 1, timeUnit := some "hours" }
    (by decide) (by decide) (by decide)]
  have hdeps : incompleteDeps cycleNodes cycleEdges "A" = [{ id := "B" }] := by decide
  rw [hdeps]
  simp only [List.map_cons, List.map_nil]
  rw [calculateTimeToComplete_cycle cycleNodes cycleEdges "B" ["A", "B"] (by decide)]
  norm_num [listMax, toHours, string_unit_ne.1]

theorem cycle_Btop : calculateTimeToComplete cycleNodes cycleEdges "B" [] =
    (1, [cycleWarning "B"]) := by
  rw [calculateTimeToComplete_step cycleNodes cycleEdges "B" []
    { id := "B" } (by simp) (by decide) (by decide)]
  have hdeps : incompleteDeps cycleNodes cycleEdges "B" =
      [{ id := "A", timeEstimate := some 1, timeUnit := some "hours" }] := by decide
  rw [hdeps]
  simp only [List.map_cons, List.map_nil]
  rw [cycle_A1]
  norm_num [listMax, toHours, string_unit_ne.1]

theorem cycle_top : calculateTimeUntilReadyLog cycleNodes cycleEdges "A" =
    (1, [cycleWarning "B"]) := by
  have hfA : cycleNodes.find? (fun n => n.id == "A") =
      some ({ id := "A", timeEstimate := some 1, timeUnit := some "hours" } : CNode) := by
    decide
  have hdeps : incompleteDeps cycleNodes cycleEdges "A" = [{ id := "B" }] := by decide
  unfold calculateTimeUntilReadyLog
  rw [hfA]
  simp only [hdeps, List.map_cons, List.map_nil]
  rw [cycle_Btop]
  norm_num [listMax, fromHours, roundToOneDecimal, string_unit_ne.1, string_unit_ne.2.2.2]

/-- C4: on a cyclic graph the calculator still terminates with a finite
result: a node already on its own recursion path contributes (0, cycle
warning); every recursive call extends the visited path with the current
node, strictly growing the visited set; on the A→B→A example the result is
the finite value 1 and a cycle warning is logged. -/
theorem claim_C4 :
    (∀ (nodes : List CNode) (edges : List CEdge) (currentNodeId : String)
        (path : List String), currentNodeId ∈ path →
      calculateTimeToComplete nodes edges currentNodeId path =
        (0, [cycleWarning currentNodeId])) ∧
    (∀ (nodes : List CNode) (edges : List CEdge) (currentNodeId : String)
        (path : List String) (currentNode : CNode),
      currentNodeId ∉ path →
      nodes.find? (fun n => n.id == currentNodeId) = some currentNode →
      currentNode.status ≠ some "complete" →
      calculateTimeToComplete nodes edges currentNodeId path =
        ((if (incompleteDeps nodes edges currentNodeId).isEmpty then 0
          else listMax ((incompleteDeps nodes edges currentNodeId).map
            (fun d => (calculateTimeToComplete nodes edges d.id (currentNodeId :: path)).1)))
          + toHours (currentNode.timeEstimate.getD 0) (currentNode.timeUnit.getD "hours"),
         ((incompleteDeps nodes edges currentNodeId).map
            (fun d => (calculateTimeToComplete nodes edges d.id (currentNodeId :: path)).2)).flatten)) ∧
    (∀ (currentNodeId : String) (path : List String), currentNodeId ∉ path →
      path.toFinset ⊂ (currentNodeId :: path).toFinset) ∧
    calculateTimeUntilReady cycleNodes cycleEdges "A" = 1 ∧
    (calculateTimeUntilReadyLog cycleNodes cycleEdges "A").2 = [cycleWarning "B"] := by
  refine ⟨?_, ?_, ?_, ?_, ?_⟩
  · intro nodes edges currentNodeId path hpath
    exact calculateTimeToComplete_cycle nodes edges currentNodeId path hpath
  · intro nodes edges currentNodeId path currentNode hpath hfind hstat
    exact calculateTimeToComplete_step nodes edges currentNodeId path currentNode
      hpath hfind hstat
  · intro currentNodeId path hpath
    rw [List.toFinset_cons]
    exact Finset.ssubset_insert (by rw [List.mem_toFinset]; exact hpath)
  · show (calculateTimeUntilReadyLog cycleNodes cycleEdges "A").1 = 1
    rw [cycle_top]
  · rw [cycle_top]

theorem claim_C1_witness :
    (calculateTimeToComplete [{ id := "C", status := some "complete" }] [] "C" []).1 = 0 := by
  exact claim_C1.1 [{ id := "C", status := some "complete" }] [] "C" []
    { id := "C", status := some "complete" } (by decide) rfl

theorem claim_C4_witness :
    calculateTimeToComplete cycleNodes cycleEdges "B" ["B"] = (0, [cycleWarning "B"]) := by
  exact claim_C4.1 cycleNodes cycleEdges "B" ["B"] (by decide)

/-- C3: conflict detection is tolerance-based (difference strictly greater
than 1 in either coordinate) for position operations with both expected
coordinates present, and exact (in)equality for text, description, status,
timeEstimate and timeUnit operations; the spec's two position examples are
included. -/
theorem claim_C3 :
    (∀ (node : CNode) (p : PendingOp) (ex ey : ℚ),
      p.type = "position" → p.data.x = some ex → p.data.y = some ey →
      (isConflict node p = true ↔ 1 < |node.x - ex| ∨ 1 < |node.y - ey|)) ∧
    (∀ (node : CNode) (p : PendingOp), p.type = "text" →
      (isConflict node p = true ↔ some node.text ≠ p.data.text)) ∧
    (∀ (node : CNode) (p : PendingOp), p.type = "description" →
      (isConflict node p = true ↔ node.description ≠ p.data.description)) ∧
    (∀ (node : CNode) (p : PendingOp), p.type = "status" →
      (isConflict node p = true ↔ node.status ≠ p.data.status)) ∧
    (∀ (node : CNode) (p : PendingOp), p.type = "timeEstimate" →
      (isConflict node p = true ↔ node.timeEstimate ≠ p.data.timeEstimate)) ∧
    (∀ (node : CNode) (p : PendingOp), p.type = "timeUnit" →
      (isConflict node p = true ↔ node.timeUnit ≠ p.data.timeUnit)) ∧
    isConflict { id := "n", x := 21/2, y := 21/2 }
      { type := "position", data := { x := some 10, y := some 10 } } = false ∧
    isConflict { id := "n", x := 20, y := 20 }
      { type := "position", data := { x := some 10, y := some 10 } } = true := by
  refine ⟨?_, ?_, ?_, ?_, ?_, ?_, ?_, ?_⟩
  · intro node p ex ey ht hx hy
    simp [isConflict, ht, hx, hy]
  · intro node p ht
    simp [isConflict, ht]
  · intro node p ht
    simp [isConflict, ht]
  · intro node p ht
    simp [isConflict, ht]
  · intro node p ht
    simp [isConflict, ht]
  · intro node p ht
    simp [isConflict, ht]
  · norm_num [isConflict]
    constructor
    · rw [abs_of_pos] <;> norm_num
    · intro h
      exact absurd h (by decide)
  · norm_num [isConflict]

theorem claim_C3_witness :
    isConflict { id := "n", x := 20, y := 20 }
        { type := "position", data := { x := some 10, y := some 10 } } = true ↔
      1 < |(20 : ℚ) - 10| ∨ 1 < |(20 : ℚ) - 10| := by
  exact claim_C3.1 { id := "n", x := 20, y := 20 }
    { type := "position", data := { x := some 10, y := some 10 } } 10 10 rfl rfl rfl

/-- C5 counterexample: a dragged node is persisted at its dragged position
with no clamping, so a node of width 100 dropped at x = 4990 ends with
x + width = 5090 > CANVAS_MAX_X, violating the claimed invariant for moved
nodes. -/
theorem claim_C5_counterexample :
    onNodeDragStopPersist 4990 0 = (4990, 0) ∧
    ¬ ((onNodeDragStopPersist 4990 0).1 + 100 ≤ CANVAS_MAX_X) := by
  constructor
  · rfl
  · norm_num [onNodeDragStopPersist, CANVAS_MAX_X]

/-- C5 (amended): the bounds invariant holds for created nodes — the
creation clamp keeps MIN ≤ coordinate and coordinate + extent ≤ MAX whenever
the extent fits the canvas — while moved nodes are persisted at the dragged
position without clamping. -/
theorem claim_C5 :
    (∀ (flowX nodeWidth : ℚ), nodeWidth ≤ CANVAS_MAX_X - CANVAS_MIN_X →
      CANVAS_MIN_X ≤ clampCreationX flowX nodeWidth ∧
      clampCreationX flowX nodeWidth + nodeWidth ≤ CANVAS_MAX_X) ∧
    (∀ (flowY nodeHeight : ℚ), nodeHeight ≤ CANVAS_MAX_Y - CANVAS_MIN_Y →
      CANVAS_MIN_Y ≤ clampCreationY flowY nodeHeight ∧
      clampCreationY flowY nodeHeight + nodeHeight ≤ CANVAS_MAX_Y) ∧
    (∀ (x y : ℚ), onNodeDragStopPersist x y = (x, y)) := by
  refine ⟨?_, ?_, ?_⟩
  · intro flowX nodeWidth hw
    constructor
    · exact le_max_left _ _
    · have h1 : clampCreationX flowX nodeWidth ≤ CANVAS_MAX_X - nodeWidth := by
        apply max_le
        · linarith
        · exact min_le_left _ _
      linarith
  · intro flowY nodeHeight hh
    constructor
    · exact le_max_left _ _
    · have h1 : clampCreationY flowY nodeHeight ≤ CANVAS_MAX_Y - nodeHeight := by
        apply max_le
        · linarith
        · exact min_le_left _ _
      linarith
  · intro x y
    rfl

theorem claim_C5_witness :
    ((0 : ℚ) ≤ CANVAS_MAX_X - CANVAS_MIN_X ∧ CANVAS_MIN_X ≤ clampCreationX 0 0 ∧
      clampCreationX 0 0 + 0 ≤ CANVAS_MAX_X) := by
  refine ⟨by norm_num [CANVAS_MAX_X, CANVAS_MIN_X], ?_, ?_⟩
  · exact (claim_C5.1 0 0 (by norm_num [CANVAS_MAX_X, CANVAS_MIN_X])).1
  · exact (claim_C5.1 0 0 (by norm_num [CANVAS_MAX_X, CANVAS_MIN_X])).2

/-- C6: the live connector count is clamp(floor(distance/20), 1, 8); the
finalized node carries exactly that many left input connectors at positions
100*(i+1)/(count+1) and one right output connector at 50; a drag with
distance/20 = 3.4 yields three inputs at 25, 50, 75. -/
theorem claim_C6 :
    (∀ distance : ℚ,
      connectorCount distance = max 1 (min 8 ⌊distance / 20⌋) ∧
      1 ≤ connectorCount distance ∧ connectorCount distance ≤ 8) ∧
    (∀ count : ℕ,
      (newNodeInputConnectors count).length = count ∧
      (∀ c ∈ newNodeInputConnectors count, c.side = "left" ∧ c.type = some "input") ∧
      (newNodeInputConnectors count).map (fun c => c.position) =
        (List.range count).map
          (fun (i : ℕ) => 100 * ((i : ℚ) + 1) / ((count : ℚ) + 1))) ∧
    (∀ distance : ℚ, finalizeConnectors distance =
      newNodeInputConnectors (connectorCount distance).toNat ++ [newNodeOutputConnector]) ∧
    newNodeOutputConnector.side = "right" ∧ newNodeOutputConnector.type = some "output" ∧
    newNodeOutputConnector.position = 50 ∧
    connectorCount 68 = 3 ∧
    finalizeConnectors 68 =
      [{ id := "input-0", type := some "input", side := "left", position := 25 },
       { id := "input-1", type := some "input", side := "left", position := 50 },
       { id := "input-2", type := some "input", side := "left", position := 75 },
       { id := "output-0", type := some "output", side := "right", position := 50 }] := by
  refine ⟨?_, ?_, ?_, rfl, rfl, rfl, ?_, ?_⟩
  · intro distance
    refine ⟨rfl, ?_, ?_⟩
    · exact le_max_left _ _
    · apply max_le
      · norm_num [MIN_CONNECTORS]
      · exact min_le_left _ _
  · intro count
    refine ⟨by simp [newNodeInputConnectors], ?_, ?_⟩
    · intro c hc
      rcases List.mem_map.mp hc with ⟨i, hi, hci⟩
      rw [← hci]
      exact ⟨rfl, rfl⟩
    · rw [newNodeInputConnectors, List.map_map]
      apply List.map_congr_left
      intro i hi
      show ((i : ℚ) + 1) / ((count : ℚ) + 1) * 100 = _
      ring
  · intro distance
    rfl
  · have : ⌊(68 : ℚ) / 20⌋ = 3 := by
      norm_num [Int.floor_eq_iff]
    rw [connectorCount]
    rw [CONNECTOR_DISTANCE_FACTOR, this]
    rfl
  · have h3 : (connectorCount 68).toNat = 3 := by
      have : ⌊(68 : ℚ) / 20⌋ = 3 := by
        norm_num [Int.floor_eq_iff]
      rw [connectorCount, CONNECTOR_DISTANCE_FACTOR, this]
      rfl
    rw [finalizeConnectors, h3]
    norm_num [newNodeInputConnectors, newNodeOutputConnector, List.range_succ]
    exact ⟨rfl, rfl, rfl⟩

theorem claim_C6_witness :
    ({ id := "input-" ++ toString 0, type := some "input", side := "left",
        position := (((0 : ℕ) : ℚ) + 1) / (((1 : ℕ) : ℚ) + 1) * 100 } : Connector).side =
      "left" ∧
    ({ id := "input-" ++ toString 0, type := some "input", side := "left",
        position := (((0 : ℕ) : ℚ) + 1) / (((1 : ℕ) : ℚ) + 1) * 100 } : Connector).type =
      some "input" := by
  apply (claim_C6.2.1 1).2.1
  exact List.mem_map_of_mem _ (by decide)

/-- C7: when a snapshot is processed (its hash differs from the last
processed one), the pending record of every node contained in it is removed,
whatever the pending data was — conflict or not; when the hash matches, the
sync step is skipped entirely and the state is unchanged. -/
theorem claim_C7 :
    (∀ (st : SyncState) (convexNodes : List CNode),
      st.lastSynced ≠ some (convexNodes.map snapshotFields) →
      ∀ n ∈ convexNodes,
        lookupPending (processNodesSnapshot st convexNodes).pending n.id = none) ∧
    (∀ (st : SyncState) (convexNodes : List CNode),
      st.lastSynced = some (convexNodes.map snapshotFields) →
      processNodesSnapshot st convexNodes = st) := by
  constructor
  · intro st convexNodes hne n hn
    rw [processNodesSnapshot, if_neg hne]
    rw [lookupPending]
    have hfind : (st.pending.filter
        (fun kv => !(convexNodes.any (fun m => m.id == kv.1)))).find?
          (fun kv => kv.1 == n.id) = none := by
      apply List.find?_eq_none.mpr
      intro kv hkv
      have hpred := List.of_mem_filter hkv
      intro hbeq
      have hkvid : kv.1 = n.id := eq_of_beq hbeq
      have hany : convexNodes.any (fun m => m.id == kv.1) = true := by
        apply List.any_eq_true.mpr
        exact ⟨n, hn, by rw [hkvid]; exact beq_self_eq_true _⟩
      rw [hany] at hpred
      cases hpred
    rw [hfind]
    rfl
  · intro st convexNodes heq
    rw [processNodesSnapshot, if_pos heq]

theorem claim_C7_witness :
    lookupPending
      (processNodesSnapshot
        { pending := [("n1", { type := "text", data := { text := some "old" } })],
          lastSynced := none }
        [{ id := "n1" }]).pending "n1" = none := by
  exact claim_C7.1
    { pending := [("n1", { type := "text", data := { text := some "old" } })],
      lastSynced := none }
    [{ id := "n1" }] (by decide) { id := "n1" } (by decide)

/-- C8 counterexample: a cursor last refreshed 6 s ago — within the claimed
10 s window — is already excluded by `getAll` and deleted by `cleanup`,
because the store-side timeout constant is 5000 ms, not 10 s. -/
theorem claim_C8_counterexample :
    (10000 : ℤ) - ({ sessionId := "s1", lastUpdated := 4000 } : Cursor).lastUpdated ≤ 10000 ∧
    cursorsGetAll 10000 [{ sessionId := "s1", lastUpdated := 4000 }] = [] ∧
    cursorsCleanup 10000 [{ sessionId := "s1", lastUpdated := 4000 }] = [] := by
  refine ⟨by decide, by decide, by decide⟩

/-- C8 (amended): the store-side cursor timeout is 5 seconds
(CURSOR_TIMEOUT_MS = 5000): any cursor whose `lastUpdated` is more than
5 s old at query/cleanup time is excluded by `getAll` and deleted by
`cleanup`, and any cursor refreshed strictly within the last 5 s is
retained by both. -/
theorem claim_C8 :
    CURSOR_TIMEOUT_MS = 5000 ∧
    (∀ (now : ℤ) (allCursors : List Cursor) (c : Cursor), c ∈ allCursors →
      (now - c.lastUpdated > CURSOR_TIMEOUT_MS →
        c ∉ cursorsGetAll now allCursors ∧ c ∉ cursorsCleanup now allCursors) ∧
      (now - c.lastUpdated < CURSOR_TIMEOUT_MS →
        c ∈ cursorsGetAll now allCursors ∧ c ∈ cursorsCleanup now allCursors)) := by
  refine ⟨rfl, ?_⟩
  intro now allCursors c hc
  constructor
  · intro hstale
    constructor
    · intro hmem
      have h := List.of_mem_filter hmem
      rw [decide_eq_true_iff] at h
      linarith
    · intro hmem
      have h := List.of_mem_filter hmem
      rw [Bool.not_eq_true', decide_eq_false_iff_not] at h
      exact h hstale
  · intro hfresh
    constructor
    · exact List.mem_filter.mpr ⟨hc, by rw [decide_eq_true_iff]; exact hfresh⟩
    · apply List.mem_filter.mpr
      refine ⟨hc, ?_⟩
      rw [Bool.not_eq_true', decide_eq_false_iff_not]
      intro hgt
      linarith

theorem claim_C8_witness :
    ({ sessionId := "s2", lastUpdated := 9000 } : Cursor) ∈
      cursorsGetAll 10000 [{ sessionId := "s2", lastUpdated := 9000 }] ∧
    ({ sessionId := "s2", lastUpdated := 9000 } : Cursor) ∈
      cursorsCleanup 10000 [{ sessionId := "s2", lastUpdated := 9000 }] := by
  exact (claim_C8.2 10000 [{ sessionId := "s2", lastUpdated := 9000 }]
    { sessionId := "s2", lastUpdated := 9000 } (by decide)).2 (by decide)

theorem uniqueEdgesById_map_id (deleted : List FlowEdge) :
    (uniqueEdgesById deleted).map (fun e => e.id) =
      dedupKeys (deleted.map (fun e => e.id)) := by
  rw [uniqueEdgesById]
  have hmem : ∀ i ∈ dedupKeys (deleted.map (fun e => e.id)),
      ∃ e, deleted.reverse.find? (fun e => e.id == i) = some e := by
    intro i hi
    have h1 : i ∈ deleted.map (fun e => e.id) := (mem_dedupKeys i _).mp hi
    rcases List.mem_map.mp h1 with ⟨e, he, heid⟩
    have h3 : (deleted.reverse.find? (fun e => e.id == i)).isSome := by
      apply List.find?_isSome.mpr
      refine ⟨e, List.mem_reverse.mpr he, ?_⟩
      show (e.id == i) = true
      rw [heid]
      exact beq_self_eq_true i
    rcases Option.isSome_iff_exists.mp h3 with ⟨e2, he2⟩
    exact ⟨e2, he2⟩
  generalize hL : dedupKeys (deleted.map (fun e => e.id)) = L
  rw [hL] at hmem
  clear hL
  induction L with
  | nil => rfl
  | cons i L ih =>
    obtain ⟨e, he⟩ := hmem i (List.mem_cons_self i L)
    have heid : e.id = i := by
      have h2 := List.find?_some he
      exact eq_of_beq h2
    rw [List.filterMap_cons, he, List.map_cons, heid,
      ih (fun j hj => hmem j (List.mem_cons_of_mem i hj))]

theorem onEdgesDelete_foldl (outcome : String → Option String) (deletingEdges : List String) :
    ∀ (l : List FlowEdge) (acc : List FlowEdge × List String × List String),
      l.foldl (onEdgesDeleteStep outcome deletingEdges) acc =
        (acc.1 ++ l.filter
            (fun e => !(deletingEdges.contains e.id) && rollbackNeeded outcome e.id),
         acc.2.1 ++ (l.filter
            (fun e => !(deletingEdges.contains e.id) && rollbackNeeded outcome e.id)).map
            (fun _ => deleteEdgeErrorToast),
         acc.2.2 ++ (l.filter (fun e => !(deletingEdges.contains e.id))).map
            (fun e => e.id)) := by
  intro l
  induction l with
  | nil => intro acc; simp
  | cons e l ih =>
    intro acc
    rw [List.foldl_cons, ih]
    by_cases hc : deletingEdges.contains e.id = true
    · have hstep : onEdgesDeleteStep outcome deletingEdges acc e = acc := by
        rw [onEdgesDeleteStep, if_pos hc]
      have hcond1 : (!(deletingEdges.contains e.id) && rollbackNeeded outcome e.id) = false := by
        rw [hc]
        rfl
      have hcond2 : (!(deletingEdges.contains e.id)) = false := by
        rw [hc]
        rfl
      rw [hstep, List.filter_cons_of_neg (by simp only [hcond1]; exact Bool.false_ne_true),
        List.filter_cons_of_neg (by simp only [hcond2]; exact Bool.false_ne_true)]
    · have hcb : deletingEdges.contains e.id = false := by
        simpa using hc
      have hcond2 : (!(deletingEdges.contains e.id)) = true := by
        rw [hcb]
        rfl
      cases ho : outcome e.id with
      | none =>
        have hstep : onEdgesDeleteStep outcome deletingEdges acc e =
            (acc.1, acc.2.1, acc.2.2 ++ [e.id]) := by
          rw [onEdgesDeleteStep, if_neg hc, ho]
        have hrb : rollbackNeeded outcome e.id = false := by
          rw [rollbackNeeded, ho]
        have hcond1 : (!(deletingEdges.contains e.id) && rollbackNeeded outcome e.id) = false := by
          rw [hrb, Bool.and_false]
        rw [hstep, List.filter_cons_of_neg (by simp only [hcond1]; exact Bool.false_ne_true),
          List.filter_cons_of_pos (by simp only [hcond2]), List.map_cons]
        simp
      | some msg =>
        by_cases hnf : isNotFoundErrorMessage msg = true
        · have hstep : onEdgesDeleteStep outcome deletingEdges acc e =
              (acc.1, acc.2.1, acc.2.2 ++ [e.id]) := by
            rw [onEdgesDeleteStep, if_neg hc, ho]
            show (if isNotFoundErrorMessage msg = true
                then ((acc.1, acc.2.1, acc.2.2 ++ [e.id]) :
                  List FlowEdge × List String × List String)
                else (acc.1 ++ [e], acc.2.1 ++ [deleteEdgeErrorToast], acc.2.2 ++ [e.id])) = _
            exact if_pos hnf
          have hrb : rollbackNeeded outcome e.id = false := by
            rw [rollbackNeeded, ho]
            show (!(isNotFoundErrorMessage msg)) = false
            rw [hnf]
            rfl
          have hcond1 : (!(deletingEdges.contains e.id) && rollbackNeeded outcome e.id) = false := by
            rw [hrb, Bool.and_false]
          rw [hstep, List.filter_cons_of_neg (by simp only [hcond1]; exact Bool.false_ne_true),
            List.filter_cons_of_pos (by simp only [hcond2]), List.map_cons]
          simp
        · have hstep : onEdgesDeleteStep outcome deletingEdges acc e =
              (acc.1 ++ [e], acc.2.1 ++ [deleteEdgeErrorToast], acc.2.2 ++ [e.id]) := by
            rw [onEdgesDeleteStep, if_neg hc, ho]
            show (if isNotFoundErrorMessage msg = true
                then ((acc.1, acc.2.1, acc.2.2 ++ [e.id]) :
                  List FlowEdge × List String × List String)
                else (acc.1 ++ [e], acc.2.1 ++ [deleteEdgeErrorToast], acc.2.2 ++ [e.id])) = _
            exact if_neg hnf
          have hrb : rollbackNeeded outcome e.id = true := by
            rw [rollbackNeeded, ho]
            show (!(isNotFoundErrorMessage msg)) = true
            simpa using hnf
          have hcond1 : (!(deletingEdges.contains e.id) && rollbackNeeded outcome e.id) = true := by
            rw [hrb, hcond2]
            rfl
          rw [hstep, List.filter_cons_of_pos (by simp only [hcond1]),
            List.filter_cons_of_pos (by simp only [hcond2]), List.map_cons, List.map_cons]
          simp

/-- C9: edge deletion de-duplicates the requested edges by id and skips ids
already in flight (each surviving id gets exactly one removeEdge call); a
failure whose message matches the "not found" patterns is treated as
success (no rollback, no toast), any other failure re-appends the edge
locally and surfaces one toast; the store-side remove is a no-op when the
edge no longer exists. -/
theorem claim_C9 :
    (∀ (deleted : List FlowEdge),
      ((uniqueEdgesById deleted).map (fun e => e.id)).Nodup) ∧
    (∀ (outcome : String → Option String) (deletingEdges : List String)
        (edges : List FlowEdge) (deleted : List FlowEdge),
      (onEdgesDelete outcome deletingEdges edges deleted).2.2 =
        ((uniqueEdgesById deleted).filter
          (fun e => !(deletingEdges.contains e.id))).map (fun e => e.id) ∧
      (onEdgesDelete outcome deletingEdges edges deleted).1 =
        edges ++ (uniqueEdgesById deleted).filter
          (fun e => !(deletingEdges.contains e.id) && rollbackNeeded outcome e.id) ∧
      (onEdgesDelete outcome deletingEdges edges deleted).2.1 =
        ((uniqueEdgesById deleted).filter
          (fun e => !(deletingEdges.contains e.id) && rollbackNeeded outcome e.id)).map
          (fun _ => deleteEdgeErrorToast)) ∧
    (∀ (outcome : String → Option String) (edgeId msg : String),
      outcome edgeId = some msg → isNotFoundErrorMessage msg = true →
      rollbackNeeded outcome edgeId = false) ∧
    isNotFoundErrorMessage "Could not find edge with id xyz" = true ∧
    isNotFoundErrorMessage "network timeout" = false ∧
    (∀ (db : List FlowEdge) (edgeId : String),
      db.find? (fun e => e.id == edgeId) = none → edgesRemove db edgeId = db) := by
  refine ⟨?_, ?_, ?_, by decide, by decide, ?_⟩
  · intro deleted
    rw [uniqueEdgesById_map_id]
    exact nodup_dedupKeys _
  · intro outcome deletingEdges edges deleted
    rw [onEdgesDelete, onEdgesDelete_foldl outcome deletingEdges (uniqueEdgesById deleted)
      (edges, [], [])]
    exact ⟨by simp, rfl, by simp⟩
  · intro outcome edgeId msg ho hnf
    rw [rollbackNeeded, ho]
    show (!(isNotFoundErrorMessage msg)) = false
    rw [hnf]
    rfl
  · intro db edgeId hfind
    rw [edgesRemove, hfind]

theorem claim_C9_witness :
    edgesRemove [{ id := "e1" }] "e2" = [{ id := "e1" }] := by
  exact claim_C9.2.2.2.2.2 [{ id := "e1" }] "e2" (by decide)
